import Mathlib

/-!
Verification of the vectorization core of the `flo_curves` repository.

Shallow embedding conventions:
* `f64` coordinates are modelled as rationals (`ℚ`); none of the verified code
  paths depend on floating-point rounding, only on field arithmetic and order
  comparisons.
* Rust `Vec` becomes `List`; a Rust `loop`/`while` becomes a fuel-indexed
  recursion returning `Option` (`none` = fuel exhausted, so a result `some r`
  is exactly a terminating run of the source loop).
* A `todo!()` in the source is a guaranteed panic; runs that reach one are
  modelled by a dedicated `panicked` result constructor.
* Functions of the repository that are not part of the provided sources
  (`subdivideN`, `trace_outline_convex`, `trace_outline_convex_partial`,
  `fit_curve`, `path_remove_interior_points`) are either modelled from the
  spec (marked `Modelled from the spec:`) or abstracted as oracle parameters.
-/

namespace FloCurves

/-- 2D point with rational coordinates, embedding the source's `Coord2`
(a pair of `f64` with vector operations). -/
structure Coord2 where
  x : ℚ
  y : ℚ
deriving DecidableEq

instance : Inhabited Coord2 := ⟨⟨0, 0⟩⟩

instance : Add Coord2 := ⟨fun a b => ⟨a.x + b.x, a.y + b.y⟩⟩

instance : Sub Coord2 := ⟨fun a b => ⟨a.x - b.x, a.y - b.y⟩⟩

/-- Scalar multiplication `point * k`, as in the source's `Coord * f64`. -/
instance : HMul Coord2 ℚ Coord2 := ⟨fun a k => ⟨a.x * k, a.y * k⟩⟩

/-- Dot product of two coordinates (`Coordinate::dot` in the source). -/
def Coord2.dot (a b : Coord2) : ℚ := a.x * b.x + a.y * b.y

@[simp] theorem Coord2.add_x (a b : Coord2) : (a + b).x = a.x + b.x := rfl
@[simp] theorem Coord2.add_y (a b : Coord2) : (a + b).y = a.y + b.y := rfl
@[simp] theorem Coord2.sub_x (a b : Coord2) : (a - b).x = a.x - b.x := rfl
@[simp] theorem Coord2.sub_y (a b : Coord2) : (a - b).y = a.y - b.y := rfl
@[simp] theorem Coord2.hmul_x (a : Coord2) (k : ℚ) : (a * k).x = a.x * k := rfl
@[simp] theorem Coord2.hmul_y (a : Coord2) (k : ℚ) : (a * k).y = a.y * k := rfl

/-! ## Root finder (`src/bezier/roots/find_roots.rs`)

The source is generic over `[TPoint; N]`; it is used on cubic control
polygons (`N = 4`), which is the shape all the claims are about. -/

/-- A cubic control polygon: the 4-point section manipulated by `find_roots`. -/
structure CubicSection where
  p0 : Coord2
  p1 : Coord2
  p2 : Coord2
  p3 : Coord2
deriving DecidableEq

/-- One edge's contribution to `count_x_axis_crossings`: `1` when the two
`y` values are strictly on opposite sides of the axis, `0` otherwise,
exactly as in the source's two-sided strict comparison. -/
def crossing_count (p1 p2 : Coord2) : Nat :=
  if p1.y < 0 ∧ 0 < p2.y then 1
  else if 0 < p1.y ∧ p2.y < 0 then 1
  else 0

/-- `count_x_axis_crossings` from the source, unrolled at `N = 4`:
the loop contributes the pairs `(p0,p1)`, `(p1,p2)`, `(p2,p3)` and the
final block contributes `(points[0], points[N-1]) = (p0,p3)`. -/
def count_x_axis_crossings (s : CubicSection) : Nat :=
  crossing_count s.p0 s.p1 + crossing_count s.p1 s.p2 +
    crossing_count s.p2 s.p3 + crossing_count s.p0 s.p3

/-- Modelled from the spec: `subdivideN` is declared in
`src/bezier/subdivide.rs`, which is not among the provided sources.
Spec §4.B: subdivision at `t` by de Casteljau (`a + (b-a)*t` interpolants),
the two halves sharing the computed subdivision point. -/
def subdivideN (t : ℚ) (s : CubicSection) : CubicSection × CubicSection :=
  let lerp : Coord2 → Coord2 → Coord2 := fun a b => a + (b - a) * t
  let m01 := lerp s.p0 s.p1
  let m12 := lerp s.p1 s.p2
  let m23 := lerp s.p2 s.p3
  let m012 := lerp m01 m12
  let m123 := lerp m12 m23
  let m0123 := lerp m012 m123
  (⟨s.p0, m01, m012, m0123⟩, ⟨m0123, m123, m23, s.p3⟩)

/-- Result of a run of `find_roots`: either a normal return with the root
list, or a panic raised by the `todo!()` body of `flat_enough`. -/
inductive RootsResult where
  | ok (roots : List ℚ)
  | panicked
deriving DecidableEq

/-- The `loop` of `find_roots`, fuel-indexed.  The `sections` stack has its
top at the head (the source pushes `right` then `left` onto the tail of a
`Vec` and pops the last element, so `left` is processed first; here the
pushes produce `left :: right :: rest`).

When a popped section has exactly one crossing the source evaluates
`flat_enough(&section)`, whose body is `todo!()`: the run panics. -/
def findRootsLoop : Nat → List CubicSection → List ℚ → Option RootsResult
  | 0, _, _ => none
  | fuel+1, sections, roots =>
    match sections with
    | [] => some (.ok roots)
    | sec :: rest =>
      let num_crossings := count_x_axis_crossings sec
      if num_crossings = 0 then
        findRootsLoop fuel rest roots
      else if num_crossings = 1 then
        some .panicked
      else
        let lr := subdivideN (1/2) sec
        findRootsLoop fuel (lr.1 :: lr.2 :: rest) roots

/-- `find_roots` from the source: start with the input section on the stack
and an empty root list. -/
def find_roots (points : CubicSection) (fuel : Nat) : Option RootsResult :=
  findRootsLoop fuel [points] []

/-- Helper: any non-panicking run of the loop returns its incoming root
accumulator unchanged — no code path ever pushes a root (the only `push`
is guarded by the panicking `flat_enough`). -/
theorem findRootsLoop_ok_eq :
    ∀ (fuel : Nat) (sections : List CubicSection) (roots res : List ℚ),
      findRootsLoop fuel sections roots = some (.ok res) → res = roots := by
  intro fuel
  induction fuel with
  | zero => intro sections roots res h; simp [findRootsLoop] at h
  | succ n ih =>
    intro sections roots res h
    match sections with
    | [] =>
      simp [findRootsLoop] at h
      exact h.symm
    | sec :: rest =>
      simp only [findRootsLoop] at h
      by_cases h0 : count_x_axis_crossings sec = 0
      · rw [if_pos h0] at h
        exact ih rest roots res h
      · rw [if_neg h0] at h
        by_cases h1 : count_x_axis_crossings sec = 1
        · rw [if_pos h1] at h
          simp at h
        · rw [if_neg h1] at h
          exact ih _ roots res h

/-- Concrete section whose control polygon crosses the axis exactly once:
`y`-values `(0, -1, 1, 0)` (the strict comparisons ignore the zero ends). -/
def sectionOneCrossing : CubicSection :=
  ⟨⟨0, 0⟩, ⟨1, -1⟩, ⟨2, 1⟩, ⟨3, 0⟩⟩

/-- Concrete section entirely above the axis (`y`-values all `1`). -/
def sectionNoCrossing : CubicSection :=
  ⟨⟨0, 1⟩, ⟨1, 1⟩, ⟨2, 1⟩, ⟨3, 1⟩⟩

/-- The spec's description of step 1 of the root finder: the number of sign
changes of the `y`-coordinates over the edges `P0-P1`, `P1-P2`, `P2-P3` and
the closing chord `P3-P0`. -/
def spec_edge_sign_changes (s : CubicSection) : Nat :=
  ([(s.p0, s.p1), (s.p1, s.p2), (s.p2, s.p3), (s.p3, s.p0)].map
    fun e => crossing_count e.1 e.2).sum

/-- A single edge's crossing test is symmetric in its two endpoints (strictly
opposite signs), so the source's closing pair `(P0, P3)` counts the same
crossings as the spec's chord `P3-P0`. -/
theorem crossing_count_comm (p q : Coord2) :
    crossing_count p q = crossing_count q p := by
  have hiff : ∀ a b : Coord2, crossing_count a b =
      if (a.y < 0 ∧ 0 < b.y) ∨ (0 < a.y ∧ b.y < 0) then 1 else 0 := by
    intro a b
    unfold crossing_count
    by_cases h1 : a.y < 0 ∧ 0 < b.y
    · simp [h1]
    · by_cases h2 : 0 < a.y ∧ b.y < 0
      · simp [h1, h2]
      · simp [h1, h2]
  rw [hiff, hiff]
  by_cases h : (p.y < 0 ∧ 0 < q.y) ∨ (0 < p.y ∧ q.y < 0)
  · rw [if_pos h, if_pos (by tauto)]
  · rw [if_neg h, if_neg (by tauto)]

/-- C1: The root finder's helpers `flat_enough` and `find_x_intercept` are
unimplemented stubs (`todo!()`), so (a) whenever the section popped by
`find_roots` has a control-polygon crossing count of exactly 1, the guard
`num_crossings == 1 && flat_enough(&section)` evaluates `flat_enough` and the
run panics, and (b) `find_roots` can never return a non-empty root list
without panicking: every normal return carries the empty list. -/
theorem c1_stub_panics :
    (∀ (s : CubicSection) (rest : List CubicSection) (roots : List ℚ) (fuel : Nat),
      count_x_axis_crossings s = 1 →
        findRootsLoop (fuel+1) (s :: rest) roots = some RootsResult.panicked) ∧
    (∀ (points : CubicSection) (fuel : Nat) (res : List ℚ),
      find_roots points fuel = some (RootsResult.ok res) → res = []) := by
  constructor
  · intro s rest roots fuel h1
    simp [findRootsLoop, h1]
  · intro points fuel res h
    exact findRootsLoop_ok_eq fuel [points] [] res h

/-- Witness for C1 at concrete inputs: a section with exactly one crossing
panics, and a section with no crossing returns normally with no roots. -/
theorem c1_stub_panics_witness :
    count_x_axis_crossings sectionOneCrossing = 1 ∧
    findRootsLoop 1 [sectionOneCrossing] [] = some RootsResult.panicked ∧
    find_roots sectionNoCrossing 2 = some (RootsResult.ok []) ∧
    ([] : List ℚ) = [] :=
  ⟨by decide, c1_stub_panics.1 sectionOneCrossing [] [] 0 (by decide),
    by decide, c1_stub_panics.2 sectionNoCrossing 2 [] (by decide)⟩

/-- C2: any root list actually returned by `find_roots` is in strictly
ascending `t` order with every two distinct roots more than `1e-9` apart.
This holds vacuously: by `findRootsLoop_ok_eq` every non-panicking run
returns the empty list (the root-emitting branch is unreachable past the
panicking `flat_enough` stub), and the source contains no
coalescing/averaging step at all. -/
theorem c2_roots_sorted_separated :
    ∀ (points : CubicSection) (fuel : Nat) (res : List ℚ),
      find_roots points fuel = some (RootsResult.ok res) →
        List.Sorted (· < ·) res ∧
          List.Pairwise (fun a b => (1 : ℚ)/1000000000 < b - a) res := by
  intro points fuel res h
  have hres : res = [] := findRootsLoop_ok_eq fuel [points] [] res h
  subst hres
  exact ⟨List.sorted_nil, List.Pairwise.nil⟩

/-- Witness for C2: a concrete run of `find_roots` that returns normally. -/
theorem c2_roots_sorted_separated_witness :
    find_roots sectionNoCrossing 2 = some (RootsResult.ok []) ∧
    (List.Sorted (· < ·) ([] : List ℚ) ∧
      List.Pairwise (fun a b => (1 : ℚ)/1000000000 < b - a) ([] : List ℚ)) :=
  ⟨by decide, c2_roots_sorted_separated sectionNoCrossing 2 [] (by decide)⟩

/-- C8: for every section popped by `find_roots`, (a) the crossing count is
the number of sign changes of the control points' `y`-coordinates over the
edges `P0-P1`, `P1-P2`, `P2-P3` and the closing chord `P3-P0`, and (b) a
section whose count is zero is discarded — the loop continues on the rest of
the stack with the root accumulator unchanged. -/
theorem c8_zero_crossings_discard :
    (∀ s : CubicSection, count_x_axis_crossings s = spec_edge_sign_changes s) ∧
    (∀ (s : CubicSection) (rest : List CubicSection) (roots : List ℚ) (fuel : Nat),
      count_x_axis_crossings s = 0 →
        findRootsLoop (fuel+1) (s :: rest) roots = findRootsLoop fuel rest roots) := by
  constructor
  · intro s
    simp [count_x_axis_crossings, spec_edge_sign_changes,
      crossing_count_comm s.p3 s.p0]
    ring
  · intro s rest roots fuel h0
    simp [findRootsLoop, h0]

/-- Witness for C8 at a concrete no-crossing section. -/
theorem c8_zero_crossings_discard_witness :
    count_x_axis_crossings sectionNoCrossing =
      spec_edge_sign_changes sectionNoCrossing ∧
    count_x_axis_crossings sectionNoCrossing = 0 ∧
    findRootsLoop 1 [sectionNoCrossing] [] = findRootsLoop 0 [] [] :=
  ⟨c8_zero_crossings_discard.1 sectionNoCrossing, by decide,
    c8_zero_crossings_discard.2 sectionNoCrossing [] [] 0 (by decide)⟩

/-! ## Ray-cast contour (`src/bezier/rasterize/ray_cast_contour.rs`) -/

/-- Modelled from the spec: `ContourSize` is declared in
`src/bezier/vectorize/sampled_contour.rs`, which is not among the provided
sources.  Spec §3: `(width, height)` non-negative integers. -/
structure ContourSize where
  width : Nat
  height : Nat
deriving DecidableEq

/-- A half-open intercept range `[start, end)` on a scan line; the source
uses `Range<f64>`, modelled as a pair (first = `start`, second = `end`). -/
abbrev InterceptRange := ℚ × ℚ

/-- The clamping step of `raycast_intercepts_on_line`: `start` clamped up to
`0`, `end` clamped down to `width` (the source's two inner `if`s). -/
def clampRangeToWidth (width : ℚ) (r : InterceptRange) : InterceptRange :=
  (if r.1 < 0 then 0 else r.1, if width ≤ r.2 then width else r.2)

/-- `raycast_intercepts_on_line` from the source: scale the `y` query, call
the user's intercept function, drop ranges with `end < 0` or
`start ≥ width`, clamp the rest to `[0, width]`, and drop empty ranges.
No validation is performed on the user function's output. -/
def raycast_intercepts_on_line (intercept_fn : ℚ → List InterceptRange)
    (y : ℚ) (scale_factor : ℚ) (size : ContourSize) : List InterceptRange :=
  let y1 := y * scale_factor
  let width : ℚ := (size.width : ℚ)
  (((intercept_fn y1).filter
      fun r => decide (0 ≤ r.2) && decide (r.1 < width)).map
    (clampRangeToWidth width)).filter
    fun r => decide (r.1 < r.2)

/-- C7: every range returned by `raycast_intercepts_on_line` satisfies
`0 ≤ start < end ≤ width`: ranges with `end < 0` or `start ≥ width` are
discarded, the survivors are clamped to `[0, width]`, and empty ranges are
dropped. -/
theorem c7_intercepts_clamped (intercept_fn : ℚ → List InterceptRange)
    (y scale_factor : ℚ) (size : ContourSize) (r : InterceptRange)
    (hmem : r ∈ raycast_intercepts_on_line intercept_fn y scale_factor size) :
    0 ≤ r.1 ∧ r.1 < r.2 ∧ r.2 ≤ (size.width : ℚ) := by
  unfold raycast_intercepts_on_line at hmem
  have h2 := List.of_mem_filter hmem
  have hmap := List.mem_of_mem_filter hmem
  rcases List.mem_map.mp hmap with ⟨r0, _, hr0⟩
  refine ⟨?_, ?_, ?_⟩
  · rw [← hr0]
    unfold clampRangeToWidth
    by_cases hs : r0.1 < 0
    · simp [hs]
    · simp [hs]; linarith [not_lt.mp hs]
  · exact of_decide_eq_true h2
  · rw [← hr0]
    unfold clampRangeToWidth
    by_cases he : (size.width : ℚ) ≤ r0.2
    · simp [he]
    · simp [he]; linarith [not_le.mp he]

/-- Witness for C7: a user function returning one range that needs a left
clamp and one range that is discarded for starting past the width. -/
theorem c7_intercepts_clamped_witness :
    ((0 : ℚ), (5 : ℚ)) ∈ raycast_intercepts_on_line
      (fun _ => [(-1, 5), (30, 40)]) 0 1 ⟨20, 20⟩ ∧
    (0 ≤ (0 : ℚ) ∧ (0 : ℚ) < (5 : ℚ) ∧ (5 : ℚ) ≤ ((⟨20, 20⟩ : ContourSize).width : ℚ)) :=
  ⟨by decide, c7_intercepts_clamped (fun _ => [(-1, 5), (30, 40)]) 0 1 ⟨20, 20⟩
    (0, 5) (by decide)⟩

/-- Counterexample for C4: the user intercept function returns the unsorted,
overlapping ranges `[5,10)` then `[3,7)`; `raycast_intercepts_on_line`
silently accepts them and returns them unchanged (clamping is the identity
here) — it returns a non-empty, still unsorted and overlapping result
instead of failing with any error kind.  (No `InvalidInput` kind exists
anywhere in the sources; the function's return type has no error channel.) -/
theorem c4_no_validation_counterexample :
    raycast_intercepts_on_line (fun _ => [(5, 10), (3, 7)]) 0 1 ⟨20, 20⟩ =
      [((5 : ℚ), (10 : ℚ)), (3, 7)] ∧
    -- the input (and hence the output) is unsorted and overlapping:
    ((3 : ℚ) < 10 ∧ (5 : ℚ) < 7 ∧ ¬ ((10 : ℚ) ≤ 3)) ∧
    raycast_intercepts_on_line (fun _ => [(5, 10), (3, 7)]) 0 1 ⟨20, 20⟩ ≠ [] := by
  refine ⟨by decide, by norm_num, by decide⟩

/-- C4 as amended: the core performs no input validation and has no error
kind; for every user intercept function — including ones returning unsorted
or overlapping ranges — `raycast_intercepts_on_line` totally computes the
discard/clamp/drop pipeline and returns a subsequence of the clamped user
ranges in the user's original order. -/
theorem c4_silent_clipping (intercept_fn : ℚ → List InterceptRange)
    (y scale_factor : ℚ) (size : ContourSize) :
    (raycast_intercepts_on_line intercept_fn y scale_factor size).Sublist
      ((intercept_fn (y * scale_factor)).map
        (clampRangeToWidth (size.width : ℚ))) := by
  unfold raycast_intercepts_on_line
  refine (List.filter_sublist _).trans ?_
  exact (List.filter_sublist _).map (clampRangeToWidth (size.width : ℚ))

/-! ## Concave outline tracer (`src/bezier/path/algorithms/fill_concave.rs`)

The tracer's collaborators `trace_outline_convex` and
`trace_outline_convex_partial` live in `fill_convex.rs`, which is not among
the provided sources; they are abstracted as parameters (the initial convex
trace as a collision list, the 180° partial probe as an oracle function of
the probe call and the current long-edge state).  Everything else — the
long-edge bookkeeping, the probe geometry, the splicing, the index
rewriting and the final item stripping — is embedded from the source. -/

/-- `RayCollision<Coord, Item>`: a collision position plus an opaque item. -/
structure RayCollision (Item : Type) where
  position : Coord2
  what : Item
deriving DecidableEq

/-- `ConcaveItem<Item>` from the source: either an edge returned by the main
raycasting function, or an intersection with a sibling long edge detected
during an earlier probe. -/
inductive ConcaveItem (Item : Type) where
  | edge (item : Item)
  | selfIntersection (idx : Nat)
deriving DecidableEq

/-- The `Into<Option<Item>> for ConcaveItem<Item>` impl from the source:
`Edge(item)` becomes `Some(item)`, `SelfIntersection(_)` becomes `None`. -/
def concaveItemInto {Item : Type} : ConcaveItem Item → Option Item
  | .edge item => some item
  | .selfIntersection _ => none

/-- The wrapped ray-cast function built at the top of
`trace_outline_concave` (the closure over the user's `cast_ray`): every
user collision is re-tagged as `ConcaveItem::Edge` with its position and
item unchanged. -/
def wrap_cast_ray {Item : Type}
    (cast_ray : Coord2 → Coord2 → List (RayCollision Item)) :
    Coord2 → Coord2 → List (RayCollision (ConcaveItem Item)) :=
  fun p q => (cast_ray p q).map fun c => ⟨c.position, .edge c.what⟩

/-- `LongEdge<Coord>` from the source.  The `end` field is called `stop`
here because `end` is reserved in Lean. -/
structure LongEdge where
  start : Coord2
  stop : Coord2
  edge_index : Nat × Nat
  ray_collided : Bool
deriving DecidableEq

instance : Inhabited LongEdge := ⟨⟨⟨0, 0⟩, ⟨0, 0⟩, (0, 0), false⟩⟩

/-- `find_long_edges` from the source: for every index, pair it with the
previous index (cyclically), and keep the pair as a `LongEdge` when the
squared distance between the two collision positions is at least
`edge_min_len_squared`.  Only positions are read from the collisions. -/
def find_long_edges {Item : Type} (edges : List (RayCollision Item))
    (edge_min_len_squared : ℚ) : List LongEdge :=
  let pos : Nat → Coord2 := fun i => ((edges.map (·.position)).getD i ⟨0, 0⟩)
  (List.range edges.length).filterMap fun edge_num =>
    let last_edge := if edge_num = 0 then edges.length - 1 else edge_num - 1
    let edge_offset := pos last_edge - pos edge_num
    let edge_distance_squared := edge_offset.dot edge_offset
    if edge_min_len_squared ≤ edge_distance_squared then
      some { start := pos last_edge, stop := pos edge_num,
             edge_index := (last_edge, edge_num), ray_collided := false }
    else none

/-- A symbolic angle value.  The source computes `f64` angles with `atan2`
and `+ π`, which are transcendental; the tracer itself never inspects the
angle — it only hands it to `trace_outline_convex_partial` — so angles are
kept as the syntactic expressions the source builds. -/
inductive AngleExpr where
  | atan2 (a b : ℚ)
  | addPi (base : AngleExpr)
deriving DecidableEq

/-- The arguments `trace_outline_concave` passes to
`trace_outline_convex_partial` for one long edge: the probe origin and the
swept angle range (start, end). -/
structure ProbeCall where
  center_point : Coord2
  sweep : AngleExpr × AngleExpr
deriving DecidableEq

/-- The probe parameters computed by the source for a long edge:
`center_point = (start + end) * 0.5`, `offset = start - end`,
`line_angle = offset.x().atan2(offset.y())`, swept range
`line_angle..(line_angle + π)`. -/
def probeCallFor (e : LongEdge) : ProbeCall :=
  let center_point := (e.start + e.stop) * (0.5 : ℚ)
  let offset := e.start - e.stop
  let line_angle := AngleExpr.atan2 offset.x offset.y
  ⟨center_point, (line_angle, .addPi line_angle)⟩

/-- The `ray_collided` marking pass of the source: for every new collision
tagged `SelfIntersection(i)`, set `long_edges[i].ray_collided = true`. -/
def markCollided {Item : Type} (long_edges : List LongEdge)
    (new_edges : List (RayCollision (ConcaveItem Item))) : List LongEdge :=
  new_edges.foldl
    (fun les c =>
      match c.what with
      | .selfIntersection i => les.set i { les.getD i default with ray_collided := true }
      | .edge _ => les)
    long_edges

/-- Index rewriting on one long edge: a component at or past the insertion
point moves down by the insertion count. -/
def bumpEdge (edge_index num_new : Nat) (e : LongEdge) : LongEdge :=
  { e with edge_index :=
      ((if edge_index ≤ e.edge_index.1 then e.edge_index.1 + num_new else e.edge_index.1),
       (if edge_index ≤ e.edge_index.2 then e.edge_index.2 + num_new else e.edge_index.2)) }

/-- The source's index-update loop
`for update_idx in long_edge_index..long_edges.len()`: entries from the
cursor onwards get their indices rewritten. -/
def bumpFrom (edge_index num_new cursor i : Nat) :
    List LongEdge → List LongEdge
  | [] => []
  | e :: rest =>
    (if cursor ≤ i then bumpEdge edge_index num_new e else e) ::
      bumpFrom edge_index num_new cursor (i + 1) rest

/-- State of the `while long_edge_index < long_edges.len()` loop in
`trace_outline_concave`. -/
structure TraceState (Item : Type) where
  edges : List (RayCollision (ConcaveItem Item))
  long_edges : List LongEdge
  long_edge_index : Nat
deriving DecidableEq

/-- One iteration of the concave tracer's loop (source lines 124–225).
`probe` abstracts `trace_outline_convex_partial` applied to the augmented
`cast_ray_to_edges` function; it receives the probe call the source
computes plus the state the augmented closure captures (`long_edges` and
`long_edge_index`). -/
def traceStep {Item : Type}
    (probe : ProbeCall → List LongEdge → Nat → List (RayCollision (ConcaveItem Item)))
    (edge_min_len_squared : ℚ) (st : TraceState Item) : TraceState Item :=
  let next_edge := st.long_edges.getD st.long_edge_index default
  if next_edge.ray_collided then
    { st with long_edge_index := st.long_edge_index + 1 }
  else
    let new_edges := probe (probeCallFor next_edge) st.long_edges st.long_edge_index
    if 2 < new_edges.length then
      let next_edge_index := next_edge.edge_index.2
      let long_edges1 := markCollided st.long_edges new_edges
      let interior := (new_edges.drop 1).take (new_edges.length - 2)
      let new_long_edges :=
        (find_long_edges interior edge_min_len_squared).filter
          fun e => decide (e.edge_index.2 ≠ 0)
      let edge_index := next_edge_index
      let num_new_edges := new_edges.length - 2
      let edges2 := st.edges.take edge_index ++ interior ++ st.edges.drop edge_index
      let long_edges2 := bumpFrom edge_index num_new_edges st.long_edge_index 0 long_edges1
      let new_long_edges2 := new_long_edges.map fun e =>
        { e with edge_index := (e.edge_index.1 + edge_index, e.edge_index.2 + edge_index) }
      let long_edges3 := long_edges2.take (st.long_edge_index + 1) ++ new_long_edges2 ++
        long_edges2.drop (st.long_edge_index + 1)
      { edges := edges2, long_edges := long_edges3,
        long_edge_index := st.long_edge_index + 1 }
    else
      { st with long_edge_index := st.long_edge_index + 1 }

/-- The tracer's main loop, fuel-indexed (`none` = fuel exhausted; the
source loop has no iteration cap, so a `some` result is exactly a
terminating run). -/
def traceLoop {Item : Type}
    (probe : ProbeCall → List LongEdge → Nat → List (RayCollision (ConcaveItem Item)))
    (edge_min_len_squared : ℚ) :
    Nat → TraceState Item → Option (List (RayCollision (ConcaveItem Item)))
  | 0, _ => none
  | fuel+1, st =>
    if st.long_edge_index < st.long_edges.length then
      traceLoop probe edge_min_len_squared fuel (traceStep probe edge_min_len_squared st)
    else
      some st.edges

/-- `trace_outline_concave` from the source, with the initial convex trace
(`trace_outline_convex` over the wrapped ray-cast, not among the provided
sources) supplied as `convex_trace` and the 180° probe supplied as an
oracle.  `options_step` is `FillSettings::step`; the long-edge threshold is
`(step * 4)²`.  Returns `vec![]` when the convex trace has fewer than two
collisions; otherwise runs the loop and strips the internal tags via
`ConcaveItem`'s `Into<Option<Item>>`. -/
def trace_outline_concave {Item : Type} (options_step : ℚ)
    (convex_trace : List (RayCollision (ConcaveItem Item)))
    (probe : ProbeCall → List LongEdge → Nat → List (RayCollision (ConcaveItem Item)))
    (fuel : Nat) : Option (List (RayCollision (Option Item))) :=
  let edge_min_len := options_step * 4
  let edge_min_len_squared := edge_min_len * edge_min_len
  let edges := convex_trace
  if edges.length < 2 then
    some []
  else
    let long_edges := find_long_edges edges edge_min_len_squared
    (traceLoop probe edge_min_len_squared fuel ⟨edges, long_edges, 0⟩).map
      fun final => final.map fun c => ⟨c.position, concaveItemInto c.what⟩

/-- A cubic curve as produced by the LMS fitter (`Curve<Coord>`). -/
structure FitCurve where
  start_point : Coord2
  end_point : Coord2
  control_points : Coord2 × Coord2
deriving DecidableEq

instance : Inhabited FitCurve := ⟨⟨⟨0, 0⟩, ⟨0, 0⟩, (⟨0, 0⟩, ⟨0, 0⟩)⟩⟩

/-- Modelled from the spec: a Bézier path (`BezierPathFactory::from_points`)
— a start point and a list of `(C1, C2, End)` segment triples (spec §3). -/
structure BezierPath where
  start : Coord2
  segments : List (Coord2 × Coord2 × Coord2)
deriving DecidableEq

/-- `flood_fill_concave` from the source.  `fit_curve` (the LMS fitter) and
`path_remove_interior_points`, both missing from the provided sources, are
parameters.  The outer `Option` is the loop fuel of the inner tracer; the
inner `Option` is the source's return value (`None` = fit failure or no
curves). -/
def flood_fill_concave {Item : Type}
    (fit_curve : List Coord2 → Option (List FitCurve))
    (path_remove_interior_points : List BezierPath → List BezierPath)
    (options_step : ℚ)
    (convex_trace : List (RayCollision (ConcaveItem Item)))
    (probe : ProbeCall → List LongEdge → Nat → List (RayCollision (ConcaveItem Item)))
    (fuel : Nat) : Option (Option (List BezierPath)) :=
  (trace_outline_concave options_step convex_trace probe fuel).map
    fun collisions =>
      match fit_curve (collisions.map (·.position)) with
      | some curves =>
        if 0 < curves.length then
          let initial_point := (curves.getD 0 default).start_point
          let overlapped_path : BezierPath :=
            ⟨initial_point,
              curves.map fun c => (c.control_points.1, c.control_points.2, c.end_point)⟩
          some (path_remove_interior_points [overlapped_path])
        else
          none
      | none => none

/-- Two coordinates with equal components are equal. -/
theorem Coord2.ext_xy {a b : Coord2} (hx : a.x = b.x) (hy : a.y = b.y) : a = b := by
  cases a; cases b; simp_all

/-- The claim's probe origin: the edge's midpoint `M = (start + end) / 2`. -/
def spec_midpoint (e : LongEdge) : Coord2 :=
  ⟨(e.start.x + e.stop.x) / 2, (e.start.y + e.stop.y) / 2⟩

/-- The claim's edge vector `Δ = start − end` (the source's `offset`; the
claim does not fix the direction, and the source uses `start - end`). -/
def spec_edge_vector (e : LongEdge) : Coord2 := e.start - e.stop

/-- The claim's probe angle `φ = atan2(Δx, Δy)` — `x` before `y`, the
non-standard axis order. -/
def spec_phi (e : LongEdge) : AngleExpr :=
  .atan2 (spec_edge_vector e).x (spec_edge_vector e).y

/-- C9: for every long edge probed by the concave tracer, the probe origin
is the edge midpoint `M = (start + end)/2`, the probe angle is
`φ = atan2(Δx, Δy)` of the edge vector `Δ = start − end` (`x` argument
first), and the swept range is the half-plane `[φ, φ+π]`. -/
theorem c9_probe_geometry (e : LongEdge) :
    probeCallFor e = ⟨spec_midpoint e, (spec_phi e, AngleExpr.addPi (spec_phi e))⟩ := by
  unfold probeCallFor spec_midpoint spec_phi spec_edge_vector
  have h05 : ∀ a : ℚ, a * (0.5 : ℚ) = a / 2 := by
    intro a
    rw [show (0.5 : ℚ) = 1/2 by norm_num]
    ring
  refine congrArg₂ ProbeCall.mk ?_ rfl
  exact Coord2.ext_xy (by simp [h05]) (by simp [h05])

/-- C10: a probe that runs (its edge's `ray_collided` is unset) and whose
partial 180° trace returns two or fewer collisions mutates nothing: the
`edges` list, the `long_edges` queue and every flag are untouched, and only
the cursor advances to the next long edge. -/
theorem c10_small_probe_no_mutation {Item : Type}
    (probe : ProbeCall → List LongEdge → Nat → List (RayCollision (ConcaveItem Item)))
    (edge_min_len_squared : ℚ) (st : TraceState Item)
    (hflag : (st.long_edges.getD st.long_edge_index default).ray_collided = false)
    (hsmall : (probe (probeCallFor (st.long_edges.getD st.long_edge_index default))
        st.long_edges st.long_edge_index).length ≤ 2) :
    traceStep probe edge_min_len_squared st =
      { st with long_edge_index := st.long_edge_index + 1 } := by
  simp only [traceStep]
  rw [hflag]
  simp only [Bool.false_eq_true, if_false]
  rw [if_neg (by omega)]

/-- Witness for C10: a concrete state whose probe returns one collision. -/
theorem c10_small_probe_no_mutation_witness :
    ((([⟨⟨0, 0⟩, ⟨9, 0⟩, (0, 1), false⟩] : List LongEdge).getD 0 default).ray_collided = false) ∧
    ((fun (_ : ProbeCall) (_ : List LongEdge) (_ : Nat) =>
        [(⟨⟨1, 1⟩, ConcaveItem.edge ()⟩ : RayCollision (ConcaveItem Unit))])
      (probeCallFor (([⟨⟨0, 0⟩, ⟨9, 0⟩, (0, 1), false⟩] : List LongEdge).getD 0 default))
      [⟨⟨0, 0⟩, ⟨9, 0⟩, (0, 1), false⟩] 0).length ≤ 2 ∧
    traceStep
        (fun (_ : ProbeCall) (_ : List LongEdge) (_ : Nat) =>
          [(⟨⟨1, 1⟩, ConcaveItem.edge ()⟩ : RayCollision (ConcaveItem Unit))])
        16 ⟨[], [⟨⟨0, 0⟩, ⟨9, 0⟩, (0, 1), false⟩], 0⟩ =
      ⟨[], [⟨⟨0, 0⟩, ⟨9, 0⟩, (0, 1), false⟩], 1⟩ :=
  ⟨by decide, by decide,
    c10_small_probe_no_mutation
      (fun _ _ _ => [⟨⟨1, 1⟩, ConcaveItem.edge ()⟩]) 16
      ⟨[], [⟨⟨0, 0⟩, ⟨9, 0⟩, (0, 1), false⟩], 0⟩ (by decide) (by decide)⟩

/-- Counterexample for C5: with an initial convex trace of fewer than 2
collisions, `flood_fill_concave` returns `None` — not an empty path list.
Even when the fitter is as permissive as possible (`fit_curve` returning
`Some` of an empty curve list), the `curves.len() > 0` guard in
`flood_fill_concave` sends the run to the explicit `None` branch. -/
theorem c5_returns_none_counterexample :
    flood_fill_concave (fun _ => some []) id 1
        ([] : List (RayCollision (ConcaveItem Unit))) (fun _ _ _ => []) 0 = some none ∧
    (some none : Option (Option (List BezierPath))) ≠ some (some []) :=
  ⟨rfl, by decide⟩

/-- C5 as amended: if the initial convex trace produces fewer than 2
collisions, `trace_outline_concave` returns an empty collision list, and
`flood_fill_concave` returns `None` — not an empty path list (for any
fitter that, per spec §7.1/§4.B, yields no curves from zero sample
points). -/
theorem c5_few_collisions_empty_then_none {Item : Type}
    (fit_curve : List Coord2 → Option (List FitCurve))
    (path_remove_interior_points : List BezierPath → List BezierPath)
    (options_step : ℚ)
    (convex_trace : List (RayCollision (ConcaveItem Item)))
    (probe : ProbeCall → List LongEdge → Nat → List (RayCollision (ConcaveItem Item)))
    (fuel : Nat)
    (hfew : convex_trace.length < 2)
    (hfit : fit_curve [] = none ∨ fit_curve [] = some []) :
    trace_outline_concave options_step convex_trace probe fuel = some [] ∧
    flood_fill_concave fit_curve path_remove_interior_points options_step
      convex_trace probe fuel = some none := by
  have htrace : trace_outline_concave options_step convex_trace probe fuel = some [] := by
    unfold trace_outline_concave
    rw [if_pos hfew]
  refine ⟨htrace, ?_⟩
  unfold flood_fill_concave
  rw [htrace]
  rcases hfit with h | h <;> simp [h]

/-- Witness for C5's amended statement at a concrete empty convex trace. -/
theorem c5_few_collisions_empty_then_none_witness :
    (([] : List (RayCollision (ConcaveItem Unit))).length < 2 ∧
      ((fun (_ : List Coord2) => (none : Option (List FitCurve))) [] = none ∨
        (fun (_ : List Coord2) => (none : Option (List FitCurve))) [] = some [])) ∧
    (trace_outline_concave 1 ([] : List (RayCollision (ConcaveItem Unit)))
        (fun _ _ _ => []) 3 = some [] ∧
      flood_fill_concave (fun _ => none) id 1
        ([] : List (RayCollision (ConcaveItem Unit))) (fun _ _ _ => []) 3 = some none) :=
  ⟨⟨by decide, Or.inl rfl⟩,
    c5_few_collisions_empty_then_none (fun _ => none) id 1 [] (fun _ _ _ => []) 3
      (by decide) (Or.inl rfl)⟩

/-- C6: in the list returned by `trace_outline_concave`, collisions whose
internal tag is a self-intersection marker come out with `what = None`
while their position is kept, and collisions tagged as edges from the
ray-cast function come out with `what = Some(item)`, the item unchanged;
moreover the wrapper placed around the user's `cast_ray` tags every user
collision as `Edge` with position and item propagated unchanged. -/
theorem c6_self_intersection_stripping :
    (∀ {Item : Type} (options_step : ℚ)
      (convex_trace : List (RayCollision (ConcaveItem Item)))
      (probe : ProbeCall → List LongEdge → Nat → List (RayCollision (ConcaveItem Item)))
      (fuel : Nat) (raw : List (RayCollision (ConcaveItem Item)))
      (out : List (RayCollision (Option Item))),
      2 ≤ convex_trace.length →
      traceLoop probe (options_step * 4 * (options_step * 4)) fuel
        ⟨convex_trace,
          find_long_edges convex_trace (options_step * 4 * (options_step * 4)), 0⟩ = some raw →
      trace_outline_concave options_step convex_trace probe fuel = some out →
      out.length = raw.length ∧
        ∀ (i : Nat) (ho : i < out.length) (hr : i < raw.length),
          (out.get ⟨i, ho⟩).position = (raw.get ⟨i, hr⟩).position ∧
          (∀ item, (raw.get ⟨i, hr⟩).what = ConcaveItem.edge item →
            (out.get ⟨i, ho⟩).what = some item) ∧
          (∀ n, (raw.get ⟨i, hr⟩).what = ConcaveItem.selfIntersection n →
            (out.get ⟨i, ho⟩).what = none)) ∧
    (∀ {Item : Type} (cast_ray : Coord2 → Coord2 → List (RayCollision Item))
      (p q : Coord2) (c : RayCollision (ConcaveItem Item)),
      c ∈ wrap_cast_ray cast_ray p q →
      ∃ c0 ∈ cast_ray p q,
        c.position = c0.position ∧ c.what = ConcaveItem.edge c0.what) := by
  constructor
  · intro Item options_step convex_trace probe fuel raw out h2 hloop hout
    have hout2 : out = raw.map fun c => ⟨c.position, concaveItemInto c.what⟩ := by
      unfold trace_outline_concave at hout
      rw [if_neg (by omega)] at hout
      simp only [hloop] at hout
      simpa using hout.symm
    subst hout2
    refine ⟨List.length_map _ _, ?_⟩
    intro i ho hr
    simp only [List.get_eq_getElem, List.getElem_map]
    refine ⟨trivial, ?_, ?_⟩
    · intro item hitem
      show concaveItemInto raw[i].what = some item
      rw [hitem]; rfl
    · intro n hn
      show concaveItemInto raw[i].what = none
      rw [hn]; rfl
  · intro Item cast_ray p q c hc
    unfold wrap_cast_ray at hc
    rcases List.mem_map.mp hc with ⟨c0, hc0, heq⟩
    exact ⟨c0, hc0, by rw [← heq], by rw [← heq]⟩

/-- Concrete convex trace for the C6 witness: one edge-tagged and one
self-intersection-tagged collision, close enough that no long edges arise. -/
def c6ConvexW : List (RayCollision (ConcaveItem Nat)) :=
  [⟨⟨0, 0⟩, ConcaveItem.edge 7⟩, ⟨⟨1, 0⟩, ConcaveItem.selfIntersection 3⟩]

/-- Expected C6 witness output: the edge item survives as `some 7`, the
self-intersection marker is stripped to `none`, positions kept. -/
def c6OutW : List (RayCollision (Option Nat)) :=
  [⟨⟨0, 0⟩, some 7⟩, ⟨⟨1, 0⟩, none⟩]

/-- Trivial probe oracle for the C6 witness (never consulted: no long edges). -/
def c6Probe : ProbeCall → List LongEdge → Nat → List (RayCollision (ConcaveItem Nat)) :=
  fun _ _ _ => []

/-- Concrete user ray-cast function for the C6 witness. -/
def c6Cast : Coord2 → Coord2 → List (RayCollision Nat) :=
  fun _ _ => [⟨⟨2, 3⟩, 9⟩]

/-- The C6 witness trace has no long edges: both cyclic edge lengths are
below the `(1·4)²` threshold. -/
theorem c6_find_long : find_long_edges c6ConvexW ((1 : ℚ) * 4 * ((1 : ℚ) * 4)) = [] := by
  unfold find_long_edges
  rw [show c6ConvexW.length = 2 from rfl, show List.range 2 = [0, 1] from rfl,
    List.filterMap_cons, List.filterMap_cons, List.filterMap_nil]
  norm_num [c6ConvexW, Coord2.dot, List.getD]

/-- The C6 witness loop terminates at once (empty long-edge queue). -/
theorem c6_loop_run :
    traceLoop c6Probe ((1 : ℚ) * 4 * ((1 : ℚ) * 4)) 1
      ⟨c6ConvexW, find_long_edges c6ConvexW ((1 : ℚ) * 4 * ((1 : ℚ) * 4)), 0⟩ =
      some c6ConvexW := by
  rw [c6_find_long]
  rfl

/-- The C6 witness trace returns with the tags stripped. -/
theorem c6_trace_run :
    trace_outline_concave 1 c6ConvexW c6Probe 1 = some c6OutW := by
  show Option.map
      (fun final => List.map
        (fun c => ({ position := c.position, what := concaveItemInto c.what } :
          RayCollision (Option Nat))) final)
      (traceLoop c6Probe ((1 : ℚ) * 4 * ((1 : ℚ) * 4)) 1
        ⟨c6ConvexW, find_long_edges c6ConvexW ((1 : ℚ) * 4 * ((1 : ℚ) * 4)), 0⟩) =
      some c6OutW
  rw [c6_loop_run]
  rfl

/-- Witness for C6: a concrete terminating trace containing one collision of
each internal tag, plus a concrete wrapped user collision. -/
theorem c6_self_intersection_stripping_witness :
    (2 ≤ c6ConvexW.length ∧
      traceLoop c6Probe ((1 : ℚ) * 4 * ((1 : ℚ) * 4)) 1
        ⟨c6ConvexW, find_long_edges c6ConvexW ((1 : ℚ) * 4 * ((1 : ℚ) * 4)), 0⟩ =
        some c6ConvexW ∧
      trace_outline_concave 1 c6ConvexW c6Probe 1 = some c6OutW) ∧
    (c6OutW.length = c6ConvexW.length ∧
      ∀ (i : Nat) (ho : i < c6OutW.length) (hr : i < c6ConvexW.length),
        (c6OutW.get ⟨i, ho⟩).position = (c6ConvexW.get ⟨i, hr⟩).position ∧
        (∀ item, (c6ConvexW.get ⟨i, hr⟩).what = ConcaveItem.edge item →
          (c6OutW.get ⟨i, ho⟩).what = some item) ∧
        (∀ n, (c6ConvexW.get ⟨i, hr⟩).what = ConcaveItem.selfIntersection n →
          (c6OutW.get ⟨i, ho⟩).what = none)) ∧
    (∃ c0 ∈ c6Cast ⟨0, 0⟩ ⟨1, 1⟩,
      (⟨⟨2, 3⟩, ConcaveItem.edge 9⟩ : RayCollision (ConcaveItem Nat)).position = c0.position ∧
      (⟨⟨2, 3⟩, ConcaveItem.edge 9⟩ : RayCollision (ConcaveItem Nat)).what =
        ConcaveItem.edge c0.what) :=
  ⟨⟨by decide, c6_loop_run, c6_trace_run⟩,
    c6_self_intersection_stripping.1 1 c6ConvexW c6Probe 1 c6ConvexW c6OutW
      (by decide) c6_loop_run c6_trace_run,
    c6_self_intersection_stripping.2 c6Cast ⟨0, 0⟩ ⟨1, 1⟩
      ⟨⟨2, 3⟩, ConcaveItem.edge 9⟩ (by decide)⟩

/-! ## Non-termination of the concave tracer's loop (C3)

The source's `while long_edge_index < long_edges.len()` loop has no
iteration cap: a probe oracle that keeps reporting a fresh long edge makes
`long_edges` grow by one entry per iteration, so the cursor never reaches
the end of the queue.  The oracle below stands for
`trace_outline_convex_partial` driven by an adversarial user `cast_ray`:
it always returns four collisions whose two interior points are `4·step`
apart, producing exactly one new unprocessed long edge per probe. -/

/-- Probe result used by the adversarial oracle: four edge-tagged
collisions, interior pair `(0,0)`, `(10,0)` (distance `10 ≥ 4·step`). -/
def advProbeList : List (RayCollision (ConcaveItem Unit)) :=
  [⟨⟨0, 0⟩, ConcaveItem.edge ()⟩, ⟨⟨0, 0⟩, ConcaveItem.edge ()⟩,
   ⟨⟨10, 0⟩, ConcaveItem.edge ()⟩, ⟨⟨0, 0⟩, ConcaveItem.edge ()⟩]

/-- The adversarial probe oracle: constant. -/
def advProbe : ProbeCall → List LongEdge → Nat → List (RayCollision (ConcaveItem Unit)) :=
  fun _ _ _ => advProbeList

/-- Initial convex trace for the divergence run: a wide triangle, so all
three edges of the initial outline are long. -/
def advConvexTrace : List (RayCollision (ConcaveItem Unit)) :=
  [⟨⟨0, 0⟩, ConcaveItem.edge ()⟩, ⟨⟨10, 0⟩, ConcaveItem.edge ()⟩,
   ⟨⟨0, 10⟩, ConcaveItem.edge ()⟩]

/-- All `ray_collided` flags in a long-edge list are unset. -/
def flagsFalse (les : List LongEdge) : Prop := ∀ e ∈ les, e.ray_collided = false

/-- `getD` at an in-range index is a member of the list. -/
theorem getD_mem {α : Type _} (l : List α) (i : Nat) (d : α) (h : i < l.length) :
    l.getD i d ∈ l := by
  induction l generalizing i with
  | nil => exact absurd h (by simp)
  | cons a t ih =>
    cases i with
    | zero => exact List.mem_cons_self a t
    | succ n => exact List.mem_cons_of_mem a (ih n (by simpa using h))

/-- `bumpFrom` preserves the length of the queue. -/
theorem bumpFrom_length (e n c : Nat) :
    ∀ (i : Nat) (l : List LongEdge), (bumpFrom e n c i l).length = l.length := by
  intro i l
  induction l generalizing i with
  | nil => rfl
  | cons a t ih => simp [bumpFrom, ih]

/-- `bumpFrom` only rewrites indices: every flag is preserved. -/
theorem bumpFrom_flags (e n c : Nat) :
    ∀ (i : Nat) (l : List LongEdge), flagsFalse l → flagsFalse (bumpFrom e n c i l) := by
  intro i l
  induction l generalizing i with
  | nil => intro _ x hx; simp [bumpFrom] at hx
  | cons a t ih =>
    intro hf x hx
    simp only [bumpFrom, List.mem_cons] at hx
    rcases hx with hx | hx
    · subst hx
      by_cases hc : c ≤ i
      · rw [if_pos hc]
        show (bumpEdge e n a).ray_collided = false
        exact hf a (List.mem_cons_self a t)
      · rw [if_neg hc]
        exact hf a (List.mem_cons_self a t)
    · exact ih (i + 1) (fun y hy => hf y (List.mem_cons_of_mem a hy)) x hx

/-- The interior of the adversarial probe result, as extracted by the source
(drop the first and last collision). -/
theorem adv_interior : (advProbeList.drop 1).take (advProbeList.length - 2) =
    [⟨⟨0, 0⟩, ConcaveItem.edge ()⟩, ⟨⟨10, 0⟩, ConcaveItem.edge ()⟩] := rfl

/-- The long edges found inside the adversarial probe interior at the
threshold `(1·4)²`: the wraparound edge `(1,0)` is retained away, leaving
exactly one new long edge `(0,1)` with its flag unset. -/
theorem adv_new_long_edges :
    (find_long_edges
        ([⟨⟨0, 0⟩, ConcaveItem.edge ()⟩, ⟨⟨10, 0⟩, ConcaveItem.edge ()⟩] :
          List (RayCollision (ConcaveItem Unit)))
        ((1 : ℚ) * 4 * ((1 : ℚ) * 4))).filter
      (fun e => decide (e.edge_index.2 ≠ 0)) =
    [⟨⟨0, 0⟩, ⟨10, 0⟩, (0, 1), false⟩] := by
  have hpre : find_long_edges
      ([⟨⟨0, 0⟩, ConcaveItem.edge ()⟩, ⟨⟨10, 0⟩, ConcaveItem.edge ()⟩] :
        List (RayCollision (ConcaveItem Unit)))
      ((1 : ℚ) * 4 * ((1 : ℚ) * 4)) =
      [⟨⟨10, 0⟩, ⟨0, 0⟩, (1, 0), false⟩, ⟨⟨0, 0⟩, ⟨10, 0⟩, (0, 1), false⟩] := by
    unfold find_long_edges
    rw [show ([⟨⟨0, 0⟩, ConcaveItem.edge ()⟩, ⟨⟨10, 0⟩, ConcaveItem.edge ()⟩] :
        List (RayCollision (ConcaveItem Unit))).length = 2 from rfl,
      show List.range 2 = [0, 1] from rfl,
      List.filterMap_cons, List.filterMap_cons, List.filterMap_nil]
    norm_num [Coord2.dot, List.getD]
  rw [hpre]
  decide

/-- The long edges of the initial triangle outline at threshold `(1·4)²`:
all three cyclic edges, flags unset. -/
theorem adv_init_long_edges :
    find_long_edges advConvexTrace ((1 : ℚ) * 4 * ((1 : ℚ) * 4)) =
      [⟨⟨0, 10⟩, ⟨0, 0⟩, (2, 0), false⟩, ⟨⟨0, 0⟩, ⟨10, 0⟩, (0, 1), false⟩,
       ⟨⟨10, 0⟩, ⟨0, 10⟩, (1, 2), false⟩] := by
  unfold find_long_edges
  rw [show advConvexTrace.length = 3 from rfl,
    show List.range 3 = [0, 1, 2] from rfl,
    List.filterMap_cons, List.filterMap_cons, List.filterMap_cons, List.filterMap_nil]
  norm_num [advConvexTrace, Coord2.dot, List.getD]

/-- One iteration of the loop under the adversarial oracle: the cursor
advances by one, the queue grows by one, and every flag stays unset. -/
theorem advStep (minsq : ℚ)
    (hconst : (find_long_edges
        ([⟨⟨0, 0⟩, ConcaveItem.edge ()⟩, ⟨⟨10, 0⟩, ConcaveItem.edge ()⟩] :
          List (RayCollision (ConcaveItem Unit))) minsq).filter
      (fun e => decide (e.edge_index.2 ≠ 0)) = [⟨⟨0, 0⟩, ⟨10, 0⟩, (0, 1), false⟩])
    (st : TraceState Unit)
    (hlt : st.long_edge_index < st.long_edges.length)
    (hflags : flagsFalse st.long_edges) :
    (traceStep advProbe minsq st).long_edge_index = st.long_edge_index + 1 ∧
    (traceStep advProbe minsq st).long_edges.length = st.long_edges.length + 1 ∧
    flagsFalse (traceStep advProbe minsq st).long_edges := by
  have hflag : (st.long_edges.getD st.long_edge_index default).ray_collided = false :=
    hflags _ (getD_mem _ _ _ hlt)
  have hmark : markCollided st.long_edges advProbeList = st.long_edges := rfl
  have hstep : traceStep advProbe minsq st =
      { edges := st.edges.take (st.long_edges.getD st.long_edge_index default).edge_index.2 ++
          [⟨⟨0, 0⟩, ConcaveItem.edge ()⟩, ⟨⟨10, 0⟩, ConcaveItem.edge ()⟩] ++
          st.edges.drop (st.long_edges.getD st.long_edge_index default).edge_index.2,
        long_edges :=
          (bumpFrom (st.long_edges.getD st.long_edge_index default).edge_index.2
              (advProbeList.length - 2) st.long_edge_index 0 st.long_edges).take
              (st.long_edge_index + 1) ++
            [⟨⟨0, 0⟩, ⟨10, 0⟩,
              (0 + (st.long_edges.getD st.long_edge_index default).edge_index.2,
               1 + (st.long_edges.getD st.long_edge_index default).edge_index.2), false⟩] ++
            (bumpFrom (st.long_edges.getD st.long_edge_index default).edge_index.2
              (advProbeList.length - 2) st.long_edge_index 0 st.long_edges).drop
              (st.long_edge_index + 1),
        long_edge_index := st.long_edge_index + 1 } := by
    simp only [traceStep, advProbe]
    rw [hflag]
    simp only [Bool.false_eq_true, if_false]
    rw [if_pos (show 2 < advProbeList.length by decide)]
    rw [adv_interior, hconst, hmark]
    simp only [List.map_cons, List.map_nil]
  rw [hstep]
  refine ⟨rfl, ?_, ?_⟩
  · simp only [List.length_append, List.length_take, List.length_drop,
      bumpFrom_length, List.length_cons, List.length_nil]
    omega
  · intro x hx
    have hbf : flagsFalse (bumpFrom (st.long_edges.getD st.long_edge_index default).edge_index.2
        (advProbeList.length - 2) st.long_edge_index 0 st.long_edges) :=
      bumpFrom_flags _ _ _ _ _ hflags
    simp only [List.mem_append, List.mem_singleton] at hx
    rcases hx with (hx | hx) | hx
    · exact hbf x ((List.take_sublist _ _).mem hx)
    · subst hx; rfl
    · exact hbf x ((List.drop_sublist _ _).mem hx)

/-- Under the adversarial oracle the loop consumes any amount of fuel
without terminating: the cursor is always strictly inside the queue. -/
theorem advLoop_none (minsq : ℚ)
    (hconst : (find_long_edges
        ([⟨⟨0, 0⟩, ConcaveItem.edge ()⟩, ⟨⟨10, 0⟩, ConcaveItem.edge ()⟩] :
          List (RayCollision (ConcaveItem Unit))) minsq).filter
      (fun e => decide (e.edge_index.2 ≠ 0)) = [⟨⟨0, 0⟩, ⟨10, 0⟩, (0, 1), false⟩]) :
    ∀ (fuel : Nat) (st : TraceState Unit),
      st.long_edge_index < st.long_edges.length → flagsFalse st.long_edges →
      traceLoop advProbe minsq fuel st = none := by
  intro fuel
  induction fuel with
  | zero => intro st _ _; rfl
  | succ n ih =>
    intro st hlt hflags
    obtain ⟨h1, h2, h3⟩ := advStep minsq hconst st hlt hflags
    simp only [traceLoop]
    rw [if_pos hlt]
    exact ih _ (by rw [h1, h2]; omega) h3

/-- C3 (refuted): `trace_outline_concave`'s loop has no iteration cap and
does not terminate on every input.  With `step = 1`, the triangle convex
trace `advConvexTrace` and the adversarial probe oracle `advProbe` (a
behaviour of the out-of-source `trace_outline_convex_partial` under an
adversarial user ray-cast function), every probe inserts one fresh long
edge, and the loop exhausts any amount of fuel without returning. -/
theorem c3_loop_diverges :
    ∀ fuel : Nat,
      trace_outline_concave 1 advConvexTrace advProbe fuel = none := by
  have hconst := adv_new_long_edges
  intro fuel
  show Option.map
      (fun final => List.map
        (fun c => ({ position := c.position, what := concaveItemInto c.what } :
          RayCollision (Option Unit))) final)
      (traceLoop advProbe ((1 : ℚ) * 4 * ((1 : ℚ) * 4)) fuel
        ⟨advConvexTrace, find_long_edges advConvexTrace ((1 : ℚ) * 4 * ((1 : ℚ) * 4)), 0⟩) =
      none
  rw [adv_init_long_edges]
  rw [advLoop_none ((1 : ℚ) * 4 * ((1 : ℚ) * 4)) hconst fuel _ (by decide)
    (by intro e he; fin_cases he <;> rfl)]
  rfl

end FloCurves
